import Mathlib

/-! JavaScriptCore executable allocator: pool classification and the JIT-safe copy path.

A shallow embedding of `Source/JavaScriptCore/jit/ExecutableAllocator.h`:

* `jitAllocationGranule`, the allocation granule;
* `startOfFixedExecutableMemoryPool` / `endOfFixedExecutableMemoryPool`, the untagged
  bounds of the fixed pool, and `isJITPC`, the range test built on them (one definition
  per branch of `#if ENABLE(ASSEMBLER)`);
* `performJITMemcpy`, which selects between the per-thread permission toggle, the
  separate-heaps write thunk and a plain `memcpy`.

Conventions.  A `void*` / `uintptr_t` is a natural number (an address); the target is
LP64, so `uintptr_t` arithmetic is taken modulo `2 ^ 64` and `off_t` is a signed 64-bit
integer.  The machine state carries the byte memory, the calling thread's access mode
and a log of the externally visible operations (permission toggles, `memcpy` calls and
write-thunk calls) in the order in which they are executed.
-/

namespace JSC

/-! ## Data model -/

/-- A `void*` or `uintptr_t` value, as the address it denotes. -/
abbrev VoidPtr := Nat

/-- One byte of memory. -/
abbrev Byte := Fin 256

/-- The byte memory of the process, indexed by address. -/
abbrev Memory := VoidPtr → Byte

/-- The access mode of the calling thread towards the JIT region, as switched by
`os_thread_self_restrict_rwx_to_rw` and `os_thread_self_restrict_rwx_to_rx`. -/
inductive AccessMode where
  | executeOnly
  | readWrite
  deriving DecidableEq

/-- The operations `performJITMemcpy` can execute, as recorded in the log.  A `memcpy`
entry also records the access mode of the thread at the moment of the copy. -/
inductive Event where
  | restrictToRW
  | restrictToRX
  | memcpy (mode : AccessMode) (dst src : VoidPtr) (n : Nat)
  | writeThunk (offset : Int) (src : VoidPtr) (n : Nat)
  deriving DecidableEq

/-- The type `JITWriteSeparateHeapsFunction`, `void (*)(off_t, const void*, size_t)`: the
effect on memory of a call with the given offset, source and length. -/
abbrev JITWriteSeparateHeapsFunction := Int → VoidPtr → Nat → Memory → Memory

/-- The build options and process-wide globals the header reads.  `untagCodePtr` and
`retagCodePtr` come from `JSCPtrTag.h`, which is not part of this header, and are taken as
parameters; `enableFastJITPermissions` is `ENABLE(FAST_JIT_PERMISSIONS)`. -/
structure Globals where
  untagCodePtr : VoidPtr → VoidPtr
  retagCodePtr : JITWriteSeparateHeapsFunction → JITWriteSeparateHeapsFunction
  enableFastJITPermissions : Bool
  taggedStartOfFixedExecutableMemoryPool : VoidPtr
  taggedEndOfFixedExecutableMemoryPool : VoidPtr
  jitWriteSeparateHeapsFunction : Option JITWriteSeparateHeapsFunction
  useFastPermisionsJITCopy : Bool

/-- The state the copy path acts on. -/
structure Machine where
  memory : Memory
  threadMode : AccessMode
  log : List Event

/-! ## Primitives used by the header -/

/-- The constant `static const unsigned jitAllocationGranule = 32;`. -/
def jitAllocationGranule : Nat := 32

/-- The unsigned subtraction `a - b` on `uintptr_t`. -/
def uintptrSub (a b : VoidPtr) : Nat :=
  (a % 2 ^ 64 + 2 ^ 64 - b % 2 ^ 64) % 2 ^ 64

/-- The conversion `(off_t)x` of a `uintptr_t` to the signed 64-bit `off_t`. -/
def toOffT (x : Nat) : Int :=
  if x % 2 ^ 64 < 2 ^ 63 then ((x % 2 ^ 64 : Nat) : Int)
  else ((x % 2 ^ 64 : Nat) : Int) - 2 ^ 64

/-- The memory after copying `n` bytes from `src` to `dst`. -/
def copyBytes (mem : Memory) (dst src : VoidPtr) (n : Nat) : Memory :=
  fun a => if dst ≤ a ∧ a < dst + n then mem (src + (a - dst)) else mem a

/-- The C library's `memcpy(dst, src, n)`: copies the bytes and returns `dst`. -/
def memcpy (m : Machine) (dst src : VoidPtr) (n : Nat) : Machine × VoidPtr :=
  (⟨copyBytes m.memory dst src n, m.threadMode,
    m.log ++ [Event.memcpy m.threadMode dst src n]⟩, dst)

/-- The system call `os_thread_self_restrict_rwx_to_rw()`: the thread may now write. -/
def os_thread_self_restrict_rwx_to_rw (m : Machine) : Machine :=
  ⟨m.memory, AccessMode.readWrite, m.log ++ [Event.restrictToRW]⟩

/-- The system call `os_thread_self_restrict_rwx_to_rx()`: the thread may only execute. -/
def os_thread_self_restrict_rwx_to_rx (m : Machine) : Machine :=
  ⟨m.memory, AccessMode.executeOnly, m.log ++ [Event.restrictToRX]⟩

/-- A call `f(offset, src, n)` of a write thunk. -/
def callWriteThunk (f : JITWriteSeparateHeapsFunction) (m : Machine)
    (offset : Int) (src : VoidPtr) (n : Nat) : Machine :=
  ⟨f offset src n m.memory, m.threadMode, m.log ++ [Event.writeThunk offset src n]⟩

/-! ## The header -/

/-- The function `startOfFixedExecutableMemoryPool()`. -/
def startOfFixedExecutableMemoryPool (g : Globals) : VoidPtr :=
  g.untagCodePtr g.taggedStartOfFixedExecutableMemoryPool

/-- The function `endOfFixedExecutableMemoryPool()`. -/
def endOfFixedExecutableMemoryPool (g : Globals) : VoidPtr :=
  g.untagCodePtr g.taggedEndOfFixedExecutableMemoryPool

/-- The function `isJITPC(pc)` of a build with `ENABLE(ASSEMBLER)`. -/
def isJITPC (g : Globals) (pc : VoidPtr) : Bool :=
  decide (startOfFixedExecutableMemoryPool g ≤ pc) &&
    decide (pc < endOfFixedExecutableMemoryPool g)

/-- The function `isJITPC` of a build without `ENABLE(ASSEMBLER)`:
`inline bool isJITPC(void*) { return false; }`. -/
def isJITPCWithoutAssembler (_pc : VoidPtr) : Bool := false

/-- The function `performJITMemcpy(dst, src, n)`: the new state and the returned pointer. -/
def performJITMemcpy (g : Globals) (m : Machine) (dst src : VoidPtr) (n : Nat) :
    Machine × VoidPtr :=
  if dst ≥ startOfFixedExecutableMemoryPool g ∧ dst < endOfFixedExecutableMemoryPool g then
    if g.enableFastJITPermissions && g.useFastPermisionsJITCopy then
      let m1 := os_thread_self_restrict_rwx_to_rw m
      let m2 := (memcpy m1 dst src n).1
      let m3 := os_thread_self_restrict_rwx_to_rx m2
      (m3, dst)
    else
      match g.jitWriteSeparateHeapsFunction with
      | some f =>
        let offset := toOffT (uintptrSub dst (startOfFixedExecutableMemoryPool g))
        (callWriteThunk (g.retagCodePtr f) m offset src n, dst)
      | none => memcpy m dst src n
  else
    memcpy m dst src n

/-- Modelled from the spec: the rounding of a request size up to the allocation granule,
done by the meta-allocator, which is not part of this header.  The spec: "size is rounded
up to the allocation granule (a fixed power-of-two, e.g. 32 bytes)". -/
def roundUp (size granule : Nat) : Nat :=
  (size + granule - 1) / granule * granule

/-! ## Concrete configurations -/

/-- A build without fast permissions, untagging the identity, pool `[16, 32)`, no thunk. -/
def plainGlobals : Globals :=
  ⟨fun p => p, fun f => f, false, 16, 32, none, false⟩

/-- A write thunk for the pool starting at `16`: stores at pool start plus offset. -/
def sampleThunk : JITWriteSeparateHeapsFunction :=
  fun offset src n mem => copyBytes mem (16 + offset.toNat) src n

/-- As `plainGlobals`, with `sampleThunk` registered. -/
def thunkGlobals : Globals :=
  ⟨fun p => p, fun f => f, false, 16, 32, some sampleThunk, false⟩

/-- A build with fast permissions, the fast copy in use, and `sampleThunk` registered. -/
def fastGlobals : Globals :=
  ⟨fun p => p, fun f => f, true, 16, 32, some sampleThunk, true⟩

/-- Untagging clears the bits from bit 48 up; the stored bounds carry the tag `2 ^ 56`
and denote the pool `[4096, 8192)`. -/
def taggedGlobals : Globals :=
  ⟨fun p => p % 2 ^ 48, fun f => f, false, 2 ^ 56 + 4096, 2 ^ 56 + 8192, none, false⟩

/-- Both bounds null: the pool was never reserved.  Fast copy on, thunk registered. -/
def nullPoolGlobals : Globals :=
  ⟨fun p => p, fun f => f, true, 0, 0, some sampleThunk, true⟩

/-- Memory holding `7` at address `100` and `0` elsewhere; thread in execute-only mode. -/
def sampleMachine : Machine :=
  ⟨fun a => if a = 100 then 7 else 0, AccessMode.executeOnly, []⟩

/-! ## Branch lemmas for `performJITMemcpy` -/

theorem performJITMemcpy_of_not_inPool (g : Globals) (m : Machine) (dst src : VoidPtr)
    (n : Nat)
    (h : ¬ (dst ≥ startOfFixedExecutableMemoryPool g ∧
      dst < endOfFixedExecutableMemoryPool g)) :
    performJITMemcpy g m dst src n = memcpy m dst src n := by
  unfold performJITMemcpy
  rw [if_neg h]

theorem performJITMemcpy_of_fast (g : Globals) (m : Machine) (dst src : VoidPtr) (n : Nat)
    (h : dst ≥ startOfFixedExecutableMemoryPool g ∧ dst < endOfFixedExecutableMemoryPool g)
    (hf : (g.enableFastJITPermissions && g.useFastPermisionsJITCopy) = true) :
    performJITMemcpy g m dst src n =
      (os_thread_self_restrict_rwx_to_rx
        (memcpy (os_thread_self_restrict_rwx_to_rw m) dst src n).1, dst) := by
  unfold performJITMemcpy
  rw [if_pos h, if_pos hf]

theorem performJITMemcpy_of_thunk (g : Globals) (m : Machine) (dst src : VoidPtr) (n : Nat)
    (f : JITWriteSeparateHeapsFunction)
    (h : dst ≥ startOfFixedExecutableMemoryPool g ∧ dst < endOfFixedExecutableMemoryPool g)
    (hf : (g.enableFastJITPermissions && g.useFastPermisionsJITCopy) = false)
    (ht : g.jitWriteSeparateHeapsFunction = some f) :
    performJITMemcpy g m dst src n =
      (callWriteThunk (g.retagCodePtr f) m
        (toOffT (uintptrSub dst (startOfFixedExecutableMemoryPool g))) src n, dst) := by
  unfold performJITMemcpy
  rw [if_pos h, if_neg (by simp [hf]), ht]

theorem performJITMemcpy_of_no_thunk (g : Globals) (m : Machine) (dst src : VoidPtr)
    (n : Nat)
    (hf : (g.enableFastJITPermissions && g.useFastPermisionsJITCopy) = false)
    (ht : g.jitWriteSeparateHeapsFunction = none) :
    performJITMemcpy g m dst src n = memcpy m dst src n := by
  unfold performJITMemcpy
  split
  · rw [if_neg (by simp [hf]), ht]
  · rfl

theorem copyBytes_inside (mem : Memory) (dst src : VoidPtr) (n i : Nat) (hi : i < n) :
    copyBytes mem dst src n (dst + i) = mem (src + i) := by
  unfold copyBytes
  rw [if_pos ⟨Nat.le_add_right dst i, Nat.add_lt_add_left hi dst⟩, Nat.add_sub_cancel_left]

theorem copyBytes_outside (mem : Memory) (dst src : VoidPtr) (n a : Nat)
    (ha : ¬ (dst ≤ a ∧ a < dst + n)) :
    copyBytes mem dst src n a = mem a := by
  unfold copyBytes
  rw [if_neg ha]

theorem isJITPC_eq_true_iff (g : Globals) (pc : VoidPtr) :
    isJITPC g pc = true ↔
      startOfFixedExecutableMemoryPool g ≤ pc ∧ pc < endOfFixedExecutableMemoryPool g := by
  simp [isJITPC]

theorem isJITPC_eq_false_iff (g : Globals) (pc : VoidPtr) :
    isJITPC g pc = false ↔
      ¬ (startOfFixedExecutableMemoryPool g ≤ pc ∧ pc < endOfFixedExecutableMemoryPool g) := by
  rw [← isJITPC_eq_true_iff, Bool.not_eq_true]

theorem toOffT_uintptrSub (dst start : VoidPtr) (h : start ≤ dst)
    (hlt : dst - start < 2 ^ 63) :
    toOffT (uintptrSub dst start) = ((dst - start : Nat) : Int) := by
  unfold VoidPtr at *
  have hsub : uintptrSub dst start = dst - start := by
    unfold uintptrSub
    omega
  rw [hsub]
  unfold toOffT
  have hmod : (dst - start) % 2 ^ 64 = dst - start := Nat.mod_eq_of_lt (by omega)
  rw [hmod, if_pos hlt]

/-! ## C1: destination in the pool, no fast path, no write thunk -/

/-- C1, as stated, fails: with the pool `[16, 32)`, fast permissions not built in and no
write thunk registered, `performJITMemcpy(16, 100, 1)` executes exactly one plain `memcpy`
and the byte at address `16`, inside the pool, changes from `0` to `7`. -/
theorem performJITMemcpy_no_thunk_writes_pool :
    isJITPC plainGlobals 16 = true ∧
    (plainGlobals.enableFastJITPermissions && plainGlobals.useFastPermisionsJITCopy) = false ∧
    plainGlobals.jitWriteSeparateHeapsFunction.isNone = true ∧
    sampleMachine.memory 16 = 0 ∧
    (performJITMemcpy plainGlobals sampleMachine 16 100 1).1.memory 16 = 7 ∧
    (performJITMemcpy plainGlobals sampleMachine 16 100 1).1.log =
      [Event.memcpy AccessMode.executeOnly 16 100 1] := by
  decide

/-- C1, amended: with `dst` inside the pool, the fast permission toggle not in use and no
write thunk registered, `performJITMemcpy` is the plain `memcpy`: it executes one `memcpy`
and nothing else, the `n` bytes at `dst` become the `n` bytes read at `src`, every other
byte and the thread's access mode are unchanged. -/
theorem performJITMemcpy_inPool_no_thunk (g : Globals) (m : Machine) (dst src : VoidPtr)
    (n : Nat)
    (_hin : startOfFixedExecutableMemoryPool g ≤ dst ∧ dst < endOfFixedExecutableMemoryPool g)
    (hfast : (g.enableFastJITPermissions && g.useFastPermisionsJITCopy) = false)
    (hthunk : g.jitWriteSeparateHeapsFunction = none) :
    performJITMemcpy g m dst src n = memcpy m dst src n ∧
    (performJITMemcpy g m dst src n).1.log =
      m.log ++ [Event.memcpy m.threadMode dst src n] ∧
    (∀ i, i < n → (performJITMemcpy g m dst src n).1.memory (dst + i) = m.memory (src + i)) ∧
    (∀ a, ¬ (dst ≤ a ∧ a < dst + n) →
      (performJITMemcpy g m dst src n).1.memory a = m.memory a) ∧
    (performJITMemcpy g m dst src n).1.threadMode = m.threadMode := by
  rw [performJITMemcpy_of_no_thunk g m dst src n hfast hthunk]
  refine ⟨rfl, rfl, ?_, ?_, rfl⟩
  · intro i hi
    exact copyBytes_inside m.memory dst src n i hi
  · intro a ha
    exact copyBytes_outside m.memory dst src n a ha

/-- The amended C1 at the pool `[16, 32)` with `dst = 16`, `src = 100`, `n = 1`. -/
theorem performJITMemcpy_inPool_no_thunk_witness :
    performJITMemcpy plainGlobals sampleMachine 16 100 1 = memcpy sampleMachine 16 100 1 ∧
    (performJITMemcpy plainGlobals sampleMachine 16 100 1).1.log =
      sampleMachine.log ++ [Event.memcpy sampleMachine.threadMode 16 100 1] ∧
    (∀ i, i < 1 → (performJITMemcpy plainGlobals sampleMachine 16 100 1).1.memory (16 + i)
      = sampleMachine.memory (100 + i)) ∧
    (∀ a, ¬ (16 ≤ a ∧ a < 16 + 1) →
      (performJITMemcpy plainGlobals sampleMachine 16 100 1).1.memory a
        = sampleMachine.memory a) ∧
    (performJITMemcpy plainGlobals sampleMachine 16 100 1).1.threadMode
      = sampleMachine.threadMode :=
  performJITMemcpy_inPool_no_thunk plainGlobals sampleMachine 16 100 1
    (by decide) (by decide) rfl

/-! ## C2: `isJITPC` is the half-open range test -/

/-- C2: `isJITPC(p)` is true exactly when `start ≤ p < end` for the untagged pool bounds.
For a non-empty pool it is true at `start` and at `end - 1`; it is false at `start - 1`
(computed on `uintptr_t`, the bounds being 64-bit addresses), at `end`, and at every
address below `start` or not below `end`. -/
theorem isJITPC_iff_in_pool (g : Globals) (p : VoidPtr) :
    (isJITPC g p = true ↔
      startOfFixedExecutableMemoryPool g ≤ p ∧ p < endOfFixedExecutableMemoryPool g) ∧
    (startOfFixedExecutableMemoryPool g < endOfFixedExecutableMemoryPool g →
      isJITPC g (startOfFixedExecutableMemoryPool g) = true ∧
      isJITPC g (endOfFixedExecutableMemoryPool g - 1) = true) ∧
    (endOfFixedExecutableMemoryPool g < 2 ^ 64 →
      isJITPC g (uintptrSub (startOfFixedExecutableMemoryPool g) 1) = false) ∧
    (0 < startOfFixedExecutableMemoryPool g →
      isJITPC g (startOfFixedExecutableMemoryPool g - 1) = false) ∧
    isJITPC g (endOfFixedExecutableMemoryPool g) = false ∧
    (p < startOfFixedExecutableMemoryPool g ∨ endOfFixedExecutableMemoryPool g ≤ p →
      isJITPC g p = false) := by
  refine ⟨isJITPC_eq_true_iff g p, ?_, ?_, ?_, ?_, ?_⟩
  · intro h
    rw [isJITPC_eq_true_iff, isJITPC_eq_true_iff]
    unfold VoidPtr at *
    omega
  · intro h
    rw [isJITPC_eq_false_iff]
    unfold uintptrSub
    unfold VoidPtr at *
    omega
  · intro h
    rw [isJITPC_eq_false_iff]
    unfold VoidPtr at *
    omega
  · rw [isJITPC_eq_false_iff]
    unfold VoidPtr at *
    omega
  · intro h
    rw [isJITPC_eq_false_iff]
    unfold VoidPtr at *
    omega

/-- C2 at the pool `[16, 32)`: true at `16` and `31`, false at `15`, `32` and `100`. -/
theorem isJITPC_iff_in_pool_witness :
    isJITPC plainGlobals 16 = true ∧ isJITPC plainGlobals 31 = true ∧
    isJITPC plainGlobals (uintptrSub 16 1) = false ∧
    isJITPC plainGlobals 15 = false ∧ isJITPC plainGlobals 32 = false ∧
    isJITPC plainGlobals 100 = false :=
  ⟨((isJITPC_iff_in_pool plainGlobals 100).2.1 (by decide)).1,
   ((isJITPC_iff_in_pool plainGlobals 100).2.1 (by decide)).2,
   (isJITPC_iff_in_pool plainGlobals 100).2.2.1 (by decide),
   (isJITPC_iff_in_pool plainGlobals 100).2.2.2.1 (by decide),
   (isJITPC_iff_in_pool plainGlobals 100).2.2.2.2.1,
   (isJITPC_iff_in_pool plainGlobals 100).2.2.2.2.2 (Or.inr (by decide))⟩

/-! ## C4: destination outside the pool -/

/-- C4: with `dst` outside the pool (`dst < start` or `dst ≥ end`), whatever the build,
the fast-copy flag and the registered thunk, `performJITMemcpy` is the plain `memcpy`: the
only operation executed is one `memcpy` (no thunk call, no permission toggle), the `n`
bytes at `dst` become the `n` bytes read at `src`, every byte outside `[dst, dst + n)` and
the thread's access mode are unchanged; when source and destination do not overlap the
bytes at `dst` and at `src` are equal afterwards. -/
theorem performJITMemcpy_outside_pool (g : Globals) (m : Machine) (dst src : VoidPtr)
    (n : Nat)
    (hout : dst < startOfFixedExecutableMemoryPool g ∨ dst ≥ endOfFixedExecutableMemoryPool g) :
    performJITMemcpy g m dst src n = memcpy m dst src n ∧
    (performJITMemcpy g m dst src n).1.log =
      m.log ++ [Event.memcpy m.threadMode dst src n] ∧
    (∀ i, i < n → (performJITMemcpy g m dst src n).1.memory (dst + i) = m.memory (src + i)) ∧
    (∀ a, ¬ (dst ≤ a ∧ a < dst + n) →
      (performJITMemcpy g m dst src n).1.memory a = m.memory a) ∧
    (performJITMemcpy g m dst src n).1.threadMode = m.threadMode ∧
    (src + n ≤ dst ∨ dst + n ≤ src → ∀ i, i < n →
      (performJITMemcpy g m dst src n).1.memory (dst + i) =
        (performJITMemcpy g m dst src n).1.memory (src + i)) := by
  have hnot : ¬ (dst ≥ startOfFixedExecutableMemoryPool g ∧
      dst < endOfFixedExecutableMemoryPool g) := by
    unfold VoidPtr at *
    omega
  rw [performJITMemcpy_of_not_inPool g m dst src n hnot]
  refine ⟨rfl, rfl, ?_, ?_, rfl, ?_⟩
  · intro i hi
    exact copyBytes_inside m.memory dst src n i hi
  · intro a ha
    exact copyBytes_outside m.memory dst src n a ha
  · intro hdisj i hi
    show copyBytes m.memory dst src n (dst + i) = copyBytes m.memory dst src n (src + i)
    rw [copyBytes_inside m.memory dst src n i hi,
      copyBytes_outside m.memory dst src n (src + i) (by unfold VoidPtr at *; omega)]

/-- C4 at the pool `[16, 32)` with a thunk registered and the fast copy in use: a copy of
one byte from `100` to `200` is a plain `memcpy`. -/
theorem performJITMemcpy_outside_pool_witness :
    (200 < startOfFixedExecutableMemoryPool fastGlobals ∨
      200 ≥ endOfFixedExecutableMemoryPool fastGlobals) ∧
    (performJITMemcpy fastGlobals sampleMachine 200 100 1).1.log =
      sampleMachine.log ++ [Event.memcpy sampleMachine.threadMode 200 100 1] ∧
    (performJITMemcpy fastGlobals sampleMachine 200 100 1).1.memory (200 + 0) =
      sampleMachine.memory (100 + 0) :=
  ⟨by decide,
   (performJITMemcpy_outside_pool fastGlobals sampleMachine 200 100 1 (by decide)).2.1,
   (performJITMemcpy_outside_pool fastGlobals sampleMachine 200 100 1 (by decide)).2.2.1 0
     (by decide)⟩

/-! ## C7: the returned pointer -/

/-- C7: in every configuration (destination inside or outside the pool, fast path on or
off, thunk registered or not) `performJITMemcpy(dst, src, n)` returns and the value it
returns is `dst`. -/
theorem performJITMemcpy_returns_dst (g : Globals) (m : Machine) (dst src : VoidPtr)
    (n : Nat) :
    (performJITMemcpy g m dst src n).2 = dst := by
  unfold performJITMemcpy
  split
  · split
    · rfl
    · split <;> rfl
  · rfl

/-! ## C3: destination in the pool, write thunk registered -/

/-- C3: with `dst` inside the pool, the fast permission toggle not in use and a write
thunk registered, for a pool of at most `2 ^ 63` bytes (so that every offset into it is an
`off_t`), the only operation executed is one call of the (retagged) thunk with arguments
`(dst - startOfPool, src, n)`; the routine executes no `memcpy` and no permission toggle,
memory changes only as the thunk changes it, the thread's access mode is unchanged, and
the offset passed satisfies `0 ≤ offset < endOfPool - startOfPool`. -/
theorem performJITMemcpy_write_thunk (g : Globals) (m : Machine) (dst src : VoidPtr)
    (n : Nat) (f : JITWriteSeparateHeapsFunction)
    (hsize : endOfFixedExecutableMemoryPool g - startOfFixedExecutableMemoryPool g ≤ 2 ^ 63)
    (hin : startOfFixedExecutableMemoryPool g ≤ dst ∧ dst < endOfFixedExecutableMemoryPool g)
    (hfast : (g.enableFastJITPermissions && g.useFastPermisionsJITCopy) = false)
    (hthunk : g.jitWriteSeparateHeapsFunction = some f) :
    (performJITMemcpy g m dst src n).1.log =
      m.log ++ [Event.writeThunk
        ((dst - startOfFixedExecutableMemoryPool g : Nat) : Int) src n] ∧
    (performJITMemcpy g m dst src n).1.memory =
      g.retagCodePtr f ((dst - startOfFixedExecutableMemoryPool g : Nat) : Int) src n
        m.memory ∧
    (performJITMemcpy g m dst src n).1.threadMode = m.threadMode ∧
    toOffT (uintptrSub dst (startOfFixedExecutableMemoryPool g)) =
      ((dst - startOfFixedExecutableMemoryPool g : Nat) : Int) ∧
    (0 : Int) ≤ ((dst - startOfFixedExecutableMemoryPool g : Nat) : Int) ∧
    ((dst - startOfFixedExecutableMemoryPool g : Nat) : Int) <
      ((endOfFixedExecutableMemoryPool g - startOfFixedExecutableMemoryPool g : Nat) : Int)
    := by
  have h1 := hin.1
  have h2 := hin.2
  have hlt : dst - startOfFixedExecutableMemoryPool g < 2 ^ 63 := by
    unfold VoidPtr at *
    omega
  have hoff := toOffT_uintptrSub dst (startOfFixedExecutableMemoryPool g) h1 hlt
  rw [performJITMemcpy_of_thunk g m dst src n f hin hfast hthunk, hoff]
  refine ⟨rfl, rfl, rfl, rfl, Int.ofNat_nonneg _, ?_⟩
  unfold VoidPtr at *
  omega

/-- C3 at the pool `[16, 32)` with `sampleThunk` registered and `dst = 20`: the log gains
one thunk call with offset `4`, the byte is stored by the thunk at `16 + 4`, and
`0 ≤ 4 < 16`. -/
theorem performJITMemcpy_write_thunk_witness :
    (endOfFixedExecutableMemoryPool thunkGlobals -
      startOfFixedExecutableMemoryPool thunkGlobals ≤ 2 ^ 63) ∧
    (startOfFixedExecutableMemoryPool thunkGlobals ≤ 20 ∧
      20 < endOfFixedExecutableMemoryPool thunkGlobals) ∧
    (performJITMemcpy thunkGlobals sampleMachine 20 100 1).1.log =
      sampleMachine.log ++ [Event.writeThunk
        ((20 - startOfFixedExecutableMemoryPool thunkGlobals : Nat) : Int) 100 1] ∧
    ((20 - startOfFixedExecutableMemoryPool thunkGlobals : Nat) : Int) = 4 ∧
    (performJITMemcpy thunkGlobals sampleMachine 20 100 1).1.memory 20 = 7 ∧
    ((20 - startOfFixedExecutableMemoryPool thunkGlobals : Nat) : Int) <
      ((endOfFixedExecutableMemoryPool thunkGlobals -
        startOfFixedExecutableMemoryPool thunkGlobals : Nat) : Int) :=
  ⟨by decide, by decide,
   (performJITMemcpy_write_thunk thunkGlobals sampleMachine 20 100 1 sampleThunk
      (by decide) (by decide) (by decide) rfl).1,
   by decide, by decide,
   (performJITMemcpy_write_thunk thunkGlobals sampleMachine 20 100 1 sampleThunk
      (by decide) (by decide) (by decide) rfl).2.2.2.2.2⟩

/-! ## C5: destination in the pool, fast permission toggle in use -/

/-- C5: with `dst` inside the pool, `FAST_JIT_PERMISSIONS` built in and
`useFastPermisionsJITCopy` true, the operations executed are, in order, the switch to
read-write, one `memcpy` of `n` bytes to `dst` executed in read-write mode, and the switch
back to execute-only; the thread ends in execute-only mode, memory is the copy's result,
and no thunk is called, whatever thunk is registered. -/
theorem performJITMemcpy_fast_toggle (g : Globals) (m : Machine) (dst src : VoidPtr)
    (n : Nat)
    (hin : startOfFixedExecutableMemoryPool g ≤ dst ∧ dst < endOfFixedExecutableMemoryPool g)
    (hbuilt : g.enableFastJITPermissions = true)
    (huse : g.useFastPermisionsJITCopy = true) :
    (performJITMemcpy g m dst src n).1.log =
      m.log ++ [Event.restrictToRW, Event.memcpy AccessMode.readWrite dst src n,
        Event.restrictToRX] ∧
    (performJITMemcpy g m dst src n).1.threadMode = AccessMode.executeOnly ∧
    (performJITMemcpy g m dst src n).1.memory = copyBytes m.memory dst src n ∧
    (∀ i, i < n → (performJITMemcpy g m dst src n).1.memory (dst + i) = m.memory (src + i)) ∧
    (∀ offset s k, Event.writeThunk offset s k ∈ (performJITMemcpy g m dst src n).1.log →
      Event.writeThunk offset s k ∈ m.log) := by
  rw [performJITMemcpy_of_fast g m dst src n hin (by simp [hbuilt, huse])]
  refine ⟨?_, rfl, rfl, ?_, ?_⟩
  · simp [os_thread_self_restrict_rwx_to_rx, os_thread_self_restrict_rwx_to_rw, memcpy]
  · intro i hi
    exact copyBytes_inside m.memory dst src n i hi
  · intro offset s k hmem
    simpa [os_thread_self_restrict_rwx_to_rx, os_thread_self_restrict_rwx_to_rw, memcpy]
      using hmem

/-- C5 at the pool `[16, 32)` with the fast copy in use and a thunk registered, `dst = 16`:
the log is toggle, copy in read-write mode, toggle, and the mode ends execute-only. -/
theorem performJITMemcpy_fast_toggle_witness :
    (startOfFixedExecutableMemoryPool fastGlobals ≤ 16 ∧
      16 < endOfFixedExecutableMemoryPool fastGlobals) ∧
    fastGlobals.jitWriteSeparateHeapsFunction.isSome = true ∧
    (performJITMemcpy fastGlobals sampleMachine 16 100 1).1.log =
      sampleMachine.log ++ [Event.restrictToRW, Event.memcpy AccessMode.readWrite 16 100 1,
        Event.restrictToRX] ∧
    (performJITMemcpy fastGlobals sampleMachine 16 100 1).1.threadMode =
      AccessMode.executeOnly :=
  ⟨by decide, rfl,
   (performJITMemcpy_fast_toggle fastGlobals sampleMachine 16 100 1 (by decide) rfl rfl).1,
   (performJITMemcpy_fast_toggle fastGlobals sampleMachine 16 100 1 (by decide) rfl rfl).2.1⟩

/-! ## C6: tagged addresses -/

/-- C6, as stated, fails: where untagging clears the bits from bit 48 up and the pool is
`[4096, 8192)`, the raw address `4100` is in the pool and `2 ^ 56 + 4100` is a tagged form
of it, yet `isJITPC(4100)` is true and `isJITPC(2 ^ 56 + 4100)` is false. -/
theorem isJITPC_tagged_false_negative :
    startOfFixedExecutableMemoryPool taggedGlobals = 4096 ∧
    endOfFixedExecutableMemoryPool taggedGlobals = 8192 ∧
    taggedGlobals.untagCodePtr (2 ^ 56 + 4100) = 4100 ∧
    isJITPC taggedGlobals 4100 = true ∧
    isJITPC taggedGlobals (2 ^ 56 + 4100) = false := by
  decide

/-- C6, amended: `isJITPC` strips the tag from the two stored pool bounds and compares the
queried address as given.  For every raw address `p` inside `[start, end)`, `isJITPC(p)`
is true; for a tagged form `t` of `p`, `isJITPC(t)` is true exactly when `t` itself lies in
`[start, end)`, so it equals `isJITPC(p)` when `t = p` and is false when `t ≥ end`. -/
theorem isJITPC_untags_bounds_only (g : Globals) (p t : VoidPtr)
    (htag : g.untagCodePtr t = p)
    (hin : startOfFixedExecutableMemoryPool g ≤ p ∧ p < endOfFixedExecutableMemoryPool g) :
    isJITPC g p = true ∧
    isJITPC g p = (decide (g.untagCodePtr g.taggedStartOfFixedExecutableMemoryPool ≤ p) &&
      decide (p < g.untagCodePtr g.taggedEndOfFixedExecutableMemoryPool)) ∧
    (isJITPC g t = true ↔
      startOfFixedExecutableMemoryPool g ≤ t ∧ t < endOfFixedExecutableMemoryPool g) ∧
    (t = g.untagCodePtr t → isJITPC g t = isJITPC g p) ∧
    (endOfFixedExecutableMemoryPool g ≤ t → isJITPC g t = false) := by
  refine ⟨(isJITPC_eq_true_iff g p).2 hin, rfl, isJITPC_eq_true_iff g t, ?_, ?_⟩
  · intro h
    rw [h, htag]
  · intro h
    rw [isJITPC_eq_false_iff]
    unfold VoidPtr at *
    omega

/-- The amended C6 where untagging clears the bits from bit 48 up, pool `[4096, 8192)`,
`p = 4100` and `t = 2 ^ 56 + 4100`. -/
theorem isJITPC_untags_bounds_only_witness :
    taggedGlobals.untagCodePtr (2 ^ 56 + 4100) = 4100 ∧
    (startOfFixedExecutableMemoryPool taggedGlobals ≤ 4100 ∧
      4100 < endOfFixedExecutableMemoryPool taggedGlobals) ∧
    isJITPC taggedGlobals 4100 = true ∧
    isJITPC taggedGlobals (2 ^ 56 + 4100) = false :=
  ⟨by decide, by decide,
   (isJITPC_untags_bounds_only taggedGlobals 4100 (2 ^ 56 + 4100) (by decide)
      (by decide)).1,
   (isJITPC_untags_bounds_only taggedGlobals 4100 (2 ^ 56 + 4100) (by decide)
      (by decide)).2.2.2.2 (by decide)⟩

/-! ## C8: the allocation granule -/

/-- C8: `jitAllocationGranule` is `32`, a power of two; rounding a size `S` up to the
granule gives a multiple of `32` that is at least `S` and at most every other such
multiple; `100` rounds to `128`; and rounding is idempotent. -/
theorem jitAllocationGranule_roundUp (S : Nat) :
    jitAllocationGranule = 32 ∧ jitAllocationGranule = 2 ^ 5 ∧
    jitAllocationGranule ∣ roundUp S jitAllocationGranule ∧
    S ≤ roundUp S jitAllocationGranule ∧
    (∀ k, jitAllocationGranule ∣ k → S ≤ k → roundUp S jitAllocationGranule ≤ k) ∧
    roundUp 100 jitAllocationGranule = 128 ∧
    roundUp (roundUp S jitAllocationGranule) jitAllocationGranule =
      roundUp S jitAllocationGranule := by
  unfold roundUp jitAllocationGranule
  refine ⟨rfl, by decide, ?_, ?_, ?_, by decide, ?_⟩
  · exact Nat.dvd_mul_left 32 _
  · omega
  · intro k hk hle
    omega
  · omega

/-! ## C9: the membership test of `performJITMemcpy` is `isJITPC` -/

/-- C9: `performJITMemcpy` branches on `isJITPC(dst)`.  The call equals the in-pool body
(fast toggle, else thunk, else fall-through copy) when `isJITPC(dst)` is true and the
plain `memcpy` when it is false; its range test `dst >= start && dst < end` is the test
`start <= pc && pc < end` of `isJITPC`.  So when `isJITPC(dst)` is true the fast toggle
runs if it is in use and otherwise the registered thunk is called, and a permission toggle
or thunk call executed by `performJITMemcpy` implies that `isJITPC(dst)` is true. -/
theorem performJITMemcpy_test_agrees_isJITPC (g : Globals) (m : Machine) (dst src : VoidPtr)
    (n : Nat) :
    performJITMemcpy g m dst src n =
      (if isJITPC g dst = true then
        if (g.enableFastJITPermissions && g.useFastPermisionsJITCopy) = true then
          (os_thread_self_restrict_rwx_to_rx
            (memcpy (os_thread_self_restrict_rwx_to_rw m) dst src n).1, dst)
        else
          match g.jitWriteSeparateHeapsFunction with
          | some f =>
            (callWriteThunk (g.retagCodePtr f) m
              (toOffT (uintptrSub dst (startOfFixedExecutableMemoryPool g))) src n, dst)
          | none => memcpy m dst src n
      else memcpy m dst src n) ∧
    decide (dst ≥ startOfFixedExecutableMemoryPool g ∧
      dst < endOfFixedExecutableMemoryPool g) = isJITPC g dst ∧
    (isJITPC g dst = false → performJITMemcpy g m dst src n = memcpy m dst src n) ∧
    (isJITPC g dst = true →
      (g.enableFastJITPermissions && g.useFastPermisionsJITCopy) = true →
      (performJITMemcpy g m dst src n).1.log =
        m.log ++ [Event.restrictToRW, Event.memcpy AccessMode.readWrite dst src n,
          Event.restrictToRX]) ∧
    (isJITPC g dst = true →
      (g.enableFastJITPermissions && g.useFastPermisionsJITCopy) = false →
      ∀ f, g.jitWriteSeparateHeapsFunction = some f →
      (performJITMemcpy g m dst src n).1.log =
        m.log ++ [Event.writeThunk
          (toOffT (uintptrSub dst (startOfFixedExecutableMemoryPool g))) src n]) ∧
    (∀ e, e ∈ (performJITMemcpy g m dst src n).1.log → e ∉ m.log →
      (e = Event.restrictToRW ∨ e = Event.restrictToRX ∨
        ∃ offset s k, e = Event.writeThunk offset s k) →
      isJITPC g dst = true) := by
  refine ⟨?_, ?_, ?_, ?_, ?_, ?_⟩
  · cases hjit : isJITPC g dst with
    | true =>
      have hin := (isJITPC_eq_true_iff g dst).1 hjit
      unfold performJITMemcpy
      rw [if_pos hin, if_pos rfl]
    | false =>
      rw [performJITMemcpy_of_not_inPool g m dst src n
        ((isJITPC_eq_false_iff g dst).1 hjit)]
      simp
  · simp [isJITPC]
  · intro h
    exact performJITMemcpy_of_not_inPool g m dst src n ((isJITPC_eq_false_iff g dst).1 h)
  · intro hjit hfast
    rw [performJITMemcpy_of_fast g m dst src n ((isJITPC_eq_true_iff g dst).1 hjit) hfast]
    simp [os_thread_self_restrict_rwx_to_rx, os_thread_self_restrict_rwx_to_rw, memcpy]
  · intro hjit hfast f hf
    rw [performJITMemcpy_of_thunk g m dst src n f ((isJITPC_eq_true_iff g dst).1 hjit)
      hfast hf]
    rfl
  · intro e he hnew hkind
    cases hjit : isJITPC g dst with
    | true => rfl
    | false =>
      exfalso
      rw [performJITMemcpy_of_not_inPool g m dst src n
        ((isJITPC_eq_false_iff g dst).1 hjit)] at he
      have hmem : e ∈ m.log ++ [Event.memcpy m.threadMode dst src n] := he
      rcases List.mem_append.1 hmem with h1 | h1
      · exact hnew h1
      · have he2 : e = Event.memcpy m.threadMode dst src n := List.mem_singleton.1 h1
        subst he2
        rcases hkind with h | h | ⟨o, s, k, h⟩ <;> exact Event.noConfusion h

/-- C9 at the pool `[16, 32)` with a thunk registered.  At `dst = 200`, where `isJITPC` is
false, the call is the plain `memcpy`.  At the first pool address `dst = 16` and at the
last one `dst = 31`, where `isJITPC` is true, the thunk is called (with the fast copy in
use, at `16`, the toggle runs); and the thunk call in the log at `dst = 20` gives
`isJITPC(20)`. -/
theorem performJITMemcpy_test_agrees_isJITPC_witness :
    isJITPC thunkGlobals 200 = false ∧
    performJITMemcpy thunkGlobals sampleMachine 200 100 1 = memcpy sampleMachine 200 100 1 ∧
    isJITPC thunkGlobals 16 = true ∧
    (performJITMemcpy thunkGlobals sampleMachine 16 100 1).1.log =
      sampleMachine.log ++ [Event.writeThunk
        (toOffT (uintptrSub 16 (startOfFixedExecutableMemoryPool thunkGlobals))) 100 1] ∧
    isJITPC thunkGlobals 31 = true ∧
    (performJITMemcpy thunkGlobals sampleMachine 31 100 1).1.log =
      sampleMachine.log ++ [Event.writeThunk
        (toOffT (uintptrSub 31 (startOfFixedExecutableMemoryPool thunkGlobals))) 100 1] ∧
    (performJITMemcpy fastGlobals sampleMachine 16 100 1).1.log =
      sampleMachine.log ++ [Event.restrictToRW, Event.memcpy AccessMode.readWrite 16 100 1,
        Event.restrictToRX] ∧
    Event.writeThunk 4 100 1 ∈ (performJITMemcpy thunkGlobals sampleMachine 20 100 1).1.log ∧
    isJITPC thunkGlobals 20 = true :=
  ⟨by decide,
   (performJITMemcpy_test_agrees_isJITPC thunkGlobals sampleMachine 200 100 1).2.2.1
     (by decide),
   by decide,
   (performJITMemcpy_test_agrees_isJITPC thunkGlobals sampleMachine 16 100 1).2.2.2.2.1
     (by decide) (by decide) sampleThunk rfl,
   by decide,
   (performJITMemcpy_test_agrees_isJITPC thunkGlobals sampleMachine 31 100 1).2.2.2.2.1
     (by decide) (by decide) sampleThunk rfl,
   (performJITMemcpy_test_agrees_isJITPC fastGlobals sampleMachine 16 100 1).2.2.2.1
     (by decide) (by decide),
   by decide,
   (performJITMemcpy_test_agrees_isJITPC thunkGlobals sampleMachine 20 100 1).2.2.2.2.2
     (Event.writeThunk 4 100 1) (by decide) (by decide)
     (Or.inr (Or.inr ⟨4, 100, 1, rfl⟩))⟩

/-! ## C10: degenerate pool bounds -/

/-- C10: when the pool bounds are degenerate (`start ≥ end`, as when both are null),
`isJITPC(p)` is false for every `p`, and `performJITMemcpy(dst, src, n)` is the plain
`memcpy` for every `dst`: the only operation executed is one `memcpy`, with no thunk call
and no permission toggle.  In a build without the assembler `isJITPC(p)` is false for
every `p`. -/
theorem degenerate_pool_is_empty (g : Globals) (m : Machine) (dst src : VoidPtr) (n : Nat)
    (hdeg : startOfFixedExecutableMemoryPool g ≥ endOfFixedExecutableMemoryPool g) :
    (∀ p, isJITPC g p = false) ∧
    performJITMemcpy g m dst src n = memcpy m dst src n ∧
    (performJITMemcpy g m dst src n).1.log =
      m.log ++ [Event.memcpy m.threadMode dst src n] ∧
    (performJITMemcpy g m dst src n).1.memory = copyBytes m.memory dst src n ∧
    (performJITMemcpy g m dst src n).1.threadMode = m.threadMode ∧
    (∀ p, isJITPCWithoutAssembler p = false) := by
  have hnot : ∀ p : VoidPtr, ¬ (p ≥ startOfFixedExecutableMemoryPool g ∧
      p < endOfFixedExecutableMemoryPool g) := by
    intro p
    unfold VoidPtr at *
    omega
  rw [performJITMemcpy_of_not_inPool g m dst src n (hnot dst)]
  refine ⟨?_, rfl, rfl, rfl, rfl, ?_⟩
  · intro p
    exact (isJITPC_eq_false_iff g p).2 (hnot p)
  · intro p
    rfl

/-- C10 with both bounds null, the fast copy in use and a thunk registered: `isJITPC(0)` is
false and a copy to address `0` is a plain `memcpy`. -/
theorem degenerate_pool_is_empty_witness :
    startOfFixedExecutableMemoryPool nullPoolGlobals ≥
      endOfFixedExecutableMemoryPool nullPoolGlobals ∧
    isJITPC nullPoolGlobals 0 = false ∧
    (performJITMemcpy nullPoolGlobals sampleMachine 0 100 1).1.log =
      sampleMachine.log ++ [Event.memcpy sampleMachine.threadMode 0 100 1] :=
  ⟨by decide,
   (degenerate_pool_is_empty nullPoolGlobals sampleMachine 0 100 1 (by decide)).1 0,
   (degenerate_pool_is_empty nullPoolGlobals sampleMachine 0 100 1 (by decide)).2.2.1⟩

end JSC
